import Mathlib

/-!
Verification development for the MCQ-Generator repository (src/app.py).

The repository is a single Streamlit script. We shallowly embed the parts of
the script that carry the program logic:

* `generate_mcq` (app.py lines 128-138): the distractor-collection loop. The
  external question-answering chain (`qa_chain.run`) is abstracted as an
  oracle function from the prompt's question text and a call counter to the
  returned string; `random.shuffle` is abstracted as a list-permuting
  function passed in as a parameter; the unbounded Python `while` loop is
  given an explicit fuel parameter counting oracle attempts, returning `none`
  when the fuel is exhausted before 4 options are collected.

* The session-state handlers (app.py lines 141-194): session state is the
  record of the keys the script reads and writes (`questions`, `score`,
  `current_question`); each button handler becomes a state-transition
  function, and a run of the script triggered by a user interaction becomes
  one application of `step`.

* The upload / cleanup control flow (app.py lines 94-124 and 196-198): the
  external file system and indexing pipeline are abstracted to the outcome of
  each fallible operation, and we track whether the temporary file exists and
  whether the script run aborted early (via `st.stop()` or an uncaught
  exception).
-/

namespace MCQGen

/-- A generated multiple-choice question, mirroring the tuple
`(question, options, correct_answer)` appended at app.py line 159. -/
structure Question where
  question : String
  options : List String
  correct_answer : String
deriving DecidableEq

/-- Python `str.strip()`: remove whitespace characters from both ends of the
string (used in app.py line 135 as `fake_answer.strip()`). Implemented over
the character list so it evaluates in the kernel. -/
def pyStrip (s : String) : String :=
  String.mk (((s.data.dropWhile Char.isWhitespace).reverse.dropWhile Char.isWhitespace).reverse)

/-- The distractor-collection loop of `generate_mcq` (app.py lines 130-136):
`while len(options) < 4:` query the oracle; keep the answer only if it is not
already present (raw, case-sensitive comparison via Python `in`) and its
whitespace-stripped form is non-empty (`len(fake_answer.strip()) > 0`).
`oracle k` is the string returned by the k-th `qa_chain.run` call; `fuel`
bounds the number of oracle attempts so the function is total: `none` means
the loop was still running after `fuel` attempts. -/
def genOptionsLoop (oracle : Nat → String) : Nat → Nat → List String → Option (List String)
  | 0, _, options => if 4 ≤ options.length then some options else none
  | fuel + 1, k, options =>
    if 4 ≤ options.length then some options
    else if oracle k ∉ options ∧ 0 < (pyStrip (oracle k)).length then
      genOptionsLoop oracle fuel (k + 1) (options ++ [oracle k])
    else
      genOptionsLoop oracle fuel (k + 1) options

/-- The `generate_mcq` helper (app.py lines 128-138): start from
`options = [correct_answer]`, run the collection loop, then shuffle.
`qa question k` abstracts `qa_chain.run` on the distractor prompt built from
`question` (k-th call); `shuffle` abstracts `random.shuffle`, which realizes
some permutation of the list. -/
def generate_mcq (question correct_answer : String) (qa : String → Nat → String)
    (shuffle : List String → List String) (fuel : Nat) : Option (List String) :=
  (genOptionsLoop (qa question) fuel 0 [correct_answer]).map shuffle

/-- The Streamlit session state as read and written by the quiz part of the
script: the `questions` key (absent before generation, hence an `Option`),
and the `score` and `current_question` counters (set by the Generate handler
and mutated by the Submit / Next handlers). -/
structure SessionState where
  questions : Option (List Question)
  score : Nat
  current_question : Nat
deriving DecidableEq

/-- The question the quiz section displays (app.py lines 163-165):
`st.session_state["questions"][current_q]`, guarded by the presence of the
`questions` key and by `current_q < len(st.session_state["questions"])`. -/
def currentQuestion (s : SessionState) : Option Question :=
  match s.questions with
  | some qs => qs.get? s.current_question
  | none => none

/-- The Submit Answer handler (app.py lines 170-175): when a question is on
display, compare the radio selection with `correct_answer` (exact string
equality); on a match increment `score` by 1. There is no record of whether
the current question was already scored, so every click re-runs this body. -/
def submitStep (s : SessionState) (selected_option : String) : SessionState :=
  match currentQuestion s with
  | some q => if selected_option = q.correct_answer then { s with score := s.score + 1 } else s
  | none => s

/-- The Next button handler (app.py lines 178-179): increment
`current_question` by 1. It only runs while a question is on display, i.e.
when `current_q < len(st.session_state["questions"])` (line 164). -/
def nextStep (s : SessionState) : SessionState :=
  match s.questions with
  | some qs =>
    if s.current_question < qs.length then
      { s with current_question := s.current_question + 1 }
    else s
  | none => s

/-- The body of the generation loop (app.py lines 149-159): `for _ in
range(4)`, produce one question per iteration and append it to the list held
in session state. `gen i` abstracts the oracle interactions for the i-th
question (lines 150-157: question prompt, correct-answer prompt, and the
`generate_mcq` distractor loop); `Except.error` models an exception raised by
any of those chain calls, which aborts the Streamlit run on the spot. The
returned flag records whether the loop was cut short by such an exception,
and the returned list is whatever had been appended by then. -/
def genLoop (gen : Nat → Except Unit Question) : Nat → List Question → List Question × Bool
  | 0, acc => (acc, false)
  | n + 1, acc =>
    match gen acc.length with
    | Except.error _ => (acc, true)
    | Except.ok q => genLoop gen n (acc ++ [q])

/-- The Generate MCQ button handler (app.py lines 141-159): guarded by
`if "questions" not in st.session_state`, it first commits
`questions = []`, `score = 0`, `current_question = 0` to session state and
then appends 4 generated questions. The returned flag records whether an
exception aborted the run partway; in that case the state at the point of
failure is what remains in the session. -/
def generateHandler (gen : Nat → Except Unit Question) (s : SessionState) :
    SessionState × Bool :=
  if s.questions.isSome then (s, false)
  else
    let r := genLoop gen 4 []
    ({ questions := some r.1, score := 0, current_question := 0 }, r.2)

/-- A user interaction that triggers one run of the script: clicking Submit
Answer with a radio selection, clicking Next, or clicking Generate MCQ (whose
oracle interactions for this run are abstracted by `gen`). -/
inductive Action where
  | submit (selected_option : String)
  | next
  | generate (gen : Nat → Except Unit Question)

/-- One script run triggered by a user interaction: dispatch to the handler
for the clicked button. -/
def step (s : SessionState) : Action → SessionState
  | Action.submit sel => submitStep s sel
  | Action.next => nextStep s
  | Action.generate gen => (generateHandler gen s).1

/-- The session state right after a successful generation run (app.py lines
144-146 plus the completed loop): the 4 questions with `score = 0` and
`current_question = 0`. -/
def mkInitial (qs : List Question) : SessionState :=
  { questions := some qs, score := 0, current_question := 0 }

/-- States reachable from `s0` by user interactions. -/
inductive Reachable (s0 : SessionState) : SessionState → Prop where
  | refl : Reachable s0 s0
  | tail : ∀ {s : SessionState} (a : Action), Reachable s0 s → Reachable s0 (step s a)

/-- The quiz is complete when the script takes the `else` branch at app.py
line 180: the `questions` key exists and `current_q < len(questions)` fails. -/
def isCompleted (s : SessionState) : Bool :=
  match s.questions with
  | some qs => if s.current_question < qs.length then false else true
  | none => false

/-- The final score display (app.py line 183):
`score_percentage = (st.session_state["score"] / total_q) * 100`. Modelled in
the rationals; for `total = 4` every value taken here is exactly
representable in Python's binary floating point as well, so the rational
model is exact for the reported number. -/
def score_percentage (score total : Nat) : ℚ :=
  ((score : ℚ) / (total : ℚ)) * 100

/-- The percentage as computed from the session state at app.py lines
182-183, with `total_q = len(st.session_state["questions"])`. -/
def summaryPercentage (s : SessionState) : ℚ :=
  score_percentage s.score (match s.questions with
    | some qs => qs.length
    | none => 0)

/-- Outcome of the attempt to save the uploaded bytes (app.py lines 99-100):
`open(temp_file_path, "wb")` itself fails (no file is created), the
subsequent `f.write` fails (the file was created, then the exception is
caught), or both succeed. -/
inductive SaveResult where
  | openFail
  | writeFail
  | saveOk
deriving DecidableEq

/-- Outcome of the indexing block (app.py lines 107-124): it either completes
or raises an uncaught exception (corrupt PDF, embedding failure, ...). -/
inductive IndexResult where
  | indexOk
  | indexRaise
deriving DecidableEq

/-- Observable outcome of one script run for the temporary file: whether
`temp_uploaded_file.pdf` exists when the run ends, and whether the run was
cut short (`st.stop()` at line 104, or an uncaught exception). -/
structure ScriptRun where
  fileExists : Bool
  aborted : Bool
deriving DecidableEq

/-- One top-to-bottom run of the script, restricted to its effects on the
temporary file (app.py lines 94-124 and 196-198), starting with no leftover
file. The save block runs only when a file is uploaded and `pdf_processed`
is not yet set; on a caught save exception the script calls `st.stop()`; the
indexing block may raise an uncaught exception; the final cleanup
(`if os.path.isfile: os.remove`) executes only if the run was not cut short. -/
def runUploadScript (uploaded pdf_processed : Bool) (save : SaveResult)
    (idx : IndexResult) : ScriptRun :=
  let r0 : ScriptRun := { fileExists := false, aborted := false }
  let r1 :=
    if uploaded && !pdf_processed then
      match save with
      | SaveResult.openFail => { r0 with aborted := true }
      | SaveResult.writeFail => { fileExists := true, aborted := true }
      | SaveResult.saveOk => { r0 with fileExists := true }
    else r0
  let r2 :=
    if !r1.aborted && (uploaded && !pdf_processed) then
      match idx with
      | IndexResult.indexRaise => { r1 with aborted := true }
      | IndexResult.indexOk => r1
    else r1
  if r2.aborted then r2 else { r2 with fileExists := false }

/-- Example question used for concrete witnesses. -/
def exQ : Question :=
  { question := "What is the capital of France?",
    options := ["Paris", "London", "Berlin", "Rome"],
    correct_answer := "Paris" }

/-- Example 4-question quiz used for concrete witnesses. -/
def exQs : List Question := [exQ, exQ, exQ, exQ]

/-- Example distractor oracle producing three fresh answers. -/
def exQa : String → Nat → String :=
  fun _ k => List.getD ["London", "Berlin", "Rome"] k "London"

/-- Example distractor oracle used with an empty correct answer. -/
def exQaABC : String → Nat → String :=
  fun _ k => List.getD ["a", "b", "c"] k "a"

/-- Example distractor oracle returning a whitespace variant of an option. -/
def exWSOracle : Nat → String := fun _ => " Paris"

/-- Example per-question generator that raises on the third question. -/
def exFailGen : Nat → Except Unit Question :=
  fun i => if i < 2 then Except.ok exQ else Except.error ()

/-! ### Helper lemmas -/

/-- A string has positive length exactly when it is not the empty string. -/
theorem string_length_pos_iff (s : String) : 0 < s.length ↔ s ≠ "" := by
  cases s with
  | mk data => simp [String.length, String.ext_iff, List.length_pos]

/-- Unrolling one iteration of the distractor loop while fewer than 4 options
are collected: the candidate is tested raw against the raw stored options,
stripping enters only through the emptiness test, and an accepted candidate
is appended verbatim. -/
theorem genOptionsLoop_succ (oracle : Nat → String) (fuel k : Nat)
    (options : List String) (hlen : options.length < 4) :
    genOptionsLoop oracle (fuel + 1) k options =
      if oracle k ∉ options ∧ 0 < (pyStrip (oracle k)).length then
        genOptionsLoop oracle fuel (k + 1) (options ++ [oracle k])
      else genOptionsLoop oracle fuel (k + 1) options := by
  rw [genOptionsLoop, if_neg (by omega)]

/-- Invariant of the distractor loop: distinctness, the multiplicity of the
correct answer, and non-blankness of all options other than the correct
answer are preserved, and a successful exit carries exactly 4 options. -/
theorem genOptionsLoop_invariant (oracle : Nat → String) (correct : String) :
    ∀ (fuel k : Nat) (options l : List String),
      options.Nodup → options.count correct = 1 → options.length ≤ 4 →
      (∀ x ∈ options, x ≠ correct → 0 < (pyStrip x).length) →
      genOptionsLoop oracle fuel k options = some l →
      l.Nodup ∧ l.count correct = 1 ∧ l.length = 4 ∧
        (∀ x ∈ l, x ≠ correct → 0 < (pyStrip x).length) := by
  intro fuel
  induction fuel with
  | zero =>
    intro k options l hnd hcnt hle hpred hsome
    rw [genOptionsLoop] at hsome
    by_cases h4 : 4 ≤ options.length
    · rw [if_pos h4] at hsome
      cases hsome
      exact ⟨hnd, hcnt, by omega, hpred⟩
    · rw [if_neg h4] at hsome
      cases hsome
  | succ fuel ih =>
    intro k options l hnd hcnt hle hpred hsome
    by_cases h4 : 4 ≤ options.length
    · rw [genOptionsLoop, if_pos h4] at hsome
      cases hsome
      exact ⟨hnd, hcnt, by omega, hpred⟩
    · rw [genOptionsLoop_succ oracle fuel k options (by omega)] at hsome
      by_cases hacc : oracle k ∉ options ∧ 0 < (pyStrip (oracle k)).length
      · rw [if_pos hacc] at hsome
        have hcmem : correct ∈ options := by
          by_contra hc
          rw [List.count_eq_zero.mpr hc] at hcnt
          exact absurd hcnt (by omega)
        have hne : oracle k ≠ correct := fun h => hacc.1 (h ▸ hcmem)
        refine ih (k + 1) (options ++ [oracle k]) l ?_ ?_ ?_ ?_ hsome
        · rw [List.nodup_append]
          refine ⟨hnd, List.nodup_singleton _, ?_⟩
          intro x hx hx1
          rw [List.mem_singleton] at hx1
          exact hacc.1 (hx1 ▸ hx)
        · rw [List.count_append]
          have : List.count correct [oracle k] = 0 := by
            apply List.count_eq_zero.mpr
            simp [hne.symm]
          omega
        · rw [List.length_append]
          simp only [List.length_singleton]
          omega
        · intro x hx hxc
          rcases List.mem_append.mp hx with hx1 | hx2
          · exact hpred x hx1 hxc
          · rw [List.mem_singleton] at hx2
            exact hx2 ▸ hacc.2
      · rw [if_neg hacc] at hsome
        exact ih (k + 1) options l hnd hcnt hle hpred hsome

/-- With an oracle that only ever returns a string already among the options,
the loop never finishes: no amount of fuel produces a result. This is the
unbounded retry of app.py lines 130-136. -/
theorem genOptionsLoop_stuck (c : String) (options : List String)
    (hc : c ∈ options) (hlen : options.length < 4) :
    ∀ fuel k, genOptionsLoop (fun _ => c) fuel k options = none := by
  intro fuel
  induction fuel with
  | zero => intro k; rw [genOptionsLoop, if_neg (by omega)]
  | succ fuel ih =>
    intro k
    rw [genOptionsLoop_succ _ fuel k options hlen, if_neg, ih (k + 1)]
    intro h
    exact h.1 hc

/-- Length accounting for the generation loop: without an error exactly `n`
questions are appended; with an error strictly fewer. -/
theorem genLoop_length (gen : Nat → Except Unit Question) :
    ∀ (n : Nat) (acc : List Question),
      ((genLoop gen n acc).2 = false → (genLoop gen n acc).1.length = acc.length + n) ∧
      ((genLoop gen n acc).2 = true →
        acc.length ≤ (genLoop gen n acc).1.length ∧
          (genLoop gen n acc).1.length < acc.length + n) := by
  intro n
  induction n with
  | zero =>
    intro acc
    constructor
    · intro _; rfl
    · intro h; cases h
  | succ n ih =>
    intro acc
    cases hg : gen acc.length with
    | error e =>
      simp only [genLoop, hg]
      constructor
      · intro h; cases h
      · intro _; constructor <;> omega
    | ok q =>
      simp only [genLoop, hg]
      have := ih (acc ++ [q])
      rw [List.length_append, List.length_singleton] at this
      constructor
      · intro h; rw [(this.1 h)]; omega
      · intro h; have h2 := this.2 h; omega

/-- Submitting an answer never touches the `questions` key or the
`current_question` counter, only possibly `score`. -/
theorem submitStep_frame (s : SessionState) (sel : String) :
    (submitStep s sel).questions = s.questions ∧
    (submitStep s sel).current_question = s.current_question := by
  unfold submitStep
  cases hc : currentQuestion s with
  | none => exact ⟨rfl, rfl⟩
  | some q => by_cases h : sel = q.correct_answer <;> simp [h]

/-- Score arithmetic of one Submit click: a matching selection adds exactly
1, anything else adds 0, with no memory of earlier submissions. -/
theorem submitStep_score (s : SessionState) (sel : String) :
    (submitStep s sel).score =
      s.score + (match currentQuestion s with
        | some q => if sel = q.correct_answer then 1 else 0
        | none => 0) := by
  unfold submitStep
  cases hc : currentQuestion s with
  | none => simp
  | some q => by_cases h : sel = q.correct_answer <;> simp [h]

/-- Updating only the score leaves the displayed question unchanged. -/
theorem currentQuestion_score_update (s : SessionState) (n : Nat) :
    currentQuestion { s with score := n } = currentQuestion s := rfl

/-- Behaviour of one Next click on each component of the session state. -/
theorem nextStep_spec (s : SessionState) :
    (nextStep s).questions = s.questions ∧ (nextStep s).score = s.score ∧
    (nextStep s).current_question =
      (match s.questions with
        | some qs =>
          if s.current_question < qs.length then s.current_question + 1
          else s.current_question
        | none => s.current_question) := by
  obtain ⟨oq, sc, cq⟩ := s
  cases oq with
  | none => exact ⟨rfl, rfl, rfl⟩
  | some qs => by_cases h : cq < qs.length <;> simp [nextStep, h]

/-- A Next click while a question is on display advances the position by
exactly one and changes nothing else. -/
theorem nextStep_advances (qs : List Question) (s : SessionState)
    (hq : s.questions = some qs) (hlt : s.current_question < qs.length) :
    nextStep s = { s with current_question := s.current_question + 1 } := by
  simp only [nextStep, hq]
  rw [if_pos hlt]

/-- The Generate MCQ handler is a no-op whenever the `questions` key is
already present (the guard at app.py line 142). -/
theorem generateHandler_of_isSome (gen : Nat → Except Unit Question)
    (s : SessionState) (h : s.questions.isSome = true) :
    generateHandler gen s = (s, false) := by
  unfold generateHandler
  rw [if_pos h]

/-- Once the quiz exists, every reachable state still holds the same
questions list and keeps `current_question` within bounds. -/
theorem reachable_invariant (qs : List Question) (s : SessionState)
    (h : Reachable (mkInitial qs) s) :
    s.questions = some qs ∧ s.current_question ≤ qs.length := by
  induction h with
  | refl => exact ⟨rfl, by simp [mkInitial]⟩
  | tail a h ih =>
    rename_i s1
    cases a with
    | submit sel =>
      have hf := submitStep_frame s1 sel
      exact ⟨hf.1.trans ih.1, hf.2 ▸ ih.2⟩
    | next =>
      have hn := nextStep_spec s1
      rw [ih.1] at hn
      simp only [step]
      refine ⟨hn.1, ?_⟩
      rw [hn.2.2]
      by_cases hlt : s1.current_question < qs.length
      · simp only [hlt, if_true]; omega
      · simp only [hlt, if_false]; exact ih.2
    | generate gen =>
      have : (generateHandler gen s1) = (s1, false) :=
        generateHandler_of_isSome gen s1 (by rw [ih.1]; rfl)
      simp only [step, this]
      exact ih

/-! ### Claim C1 -/

/-- Claim C1 (amended): whenever `generate_mcq` returns, and the shuffle is a
permutation (as `random.shuffle` is), the result has exactly 4 pairwise
distinct options (case-sensitive exact string comparison), exactly one of
which equals `correct_answer`; every option other than the correct answer is
non-empty after stripping whitespace; and a candidate distractor already
present in the options, or empty after stripping, is discarded with another
oracle query made instead. The correct answer itself is subject to no
emptiness check (see the counterexample), which is the one departure from the
claim as stated. -/
theorem generate_mcq_wellformed (question correct_answer : String)
    (qa : String → Nat → String) (shuffle : List String → List String)
    (fuel : Nat) (opts : List String)
    (hsh : ∀ l : List String, List.Perm (shuffle l) l)
    (hgen : generate_mcq question correct_answer qa shuffle fuel = some opts) :
    opts.length = 4 ∧ opts.Nodup ∧ opts.count correct_answer = 1 ∧
      (∀ x ∈ opts, x ≠ correct_answer → 0 < (pyStrip x).length) ∧
      (∀ (fuel2 k : Nat) (options : List String), options.length < 4 →
        (qa question k ∈ options ∨ (pyStrip (qa question k)).length = 0) →
        genOptionsLoop (qa question) (fuel2 + 1) k options =
          genOptionsLoop (qa question) fuel2 (k + 1) options) := by
  unfold generate_mcq at hgen
  cases hl : genOptionsLoop (qa question) fuel 0 [correct_answer] with
  | none => rw [hl] at hgen; cases hgen
  | some l0 =>
    rw [hl] at hgen
    simp only [Option.map] at hgen
    injection hgen with hgen
    subst hgen
    have hinv := genOptionsLoop_invariant (qa question) correct_answer fuel 0
      [correct_answer] l0 (List.nodup_singleton _) (by simp) (by simp)
      (by intro x hx hxc; rw [List.mem_singleton] at hx; exact absurd hx hxc) hl
    have hp := hsh l0
    refine ⟨?_, ?_, ?_, ?_, ?_⟩
    · rw [hp.length_eq]; exact hinv.2.2.1
    · exact hp.nodup_iff.mpr hinv.1
    · rw [hp.count_eq]; exact hinv.2.1
    · intro x hx hxc
      exact hinv.2.2.2 x (hp.mem_iff.mp hx) hxc
    · intro fuel2 k options hlt hrej
      rw [genOptionsLoop_succ (qa question) fuel2 k options hlt, if_neg]
      rintro ⟨hm, hs⟩
      rcases hrej with hrej | hrej
      · exact hm hrej
      · omega

/-- Witness for C1: with a fresh, non-blank oracle and the identity
permutation, the options list of a concrete run is as claimed. -/
theorem generate_mcq_wellformed_witness :
    generate_mcq "q" "Paris" exQa id 3 = some ["Paris", "London", "Berlin", "Rome"] ∧
    ["Paris", "London", "Berlin", "Rome"].count "Paris" = 1 ∧
    ["Paris", "London", "Berlin", "Rome"].Nodup ∧
    ["Paris", "London", "Berlin", "Rome"].length = 4 := by
  have h := generate_mcq_wellformed "q" "Paris" exQa id 3
    ["Paris", "London", "Berlin", "Rome"] (fun l => List.Perm.refl l) (by decide)
  exact ⟨by decide, h.2.2.1, h.2.1, h.1⟩

/-- Counterexample to C1 as stated: the code never checks that
`correct_answer` is non-blank, so with an empty correct answer the returned
options list contains an option that is empty after stripping. -/
theorem generate_mcq_blank_correct_cex :
    generate_mcq "q" "" exQaABC id 3 = some ["", "a", "b", "c"] ∧
    "" ∈ ["", "a", "b", "c"] ∧ (pyStrip "").length = 0 := by
  exact ⟨by decide, by decide, by decide⟩

/-! ### Claim C9 -/

/-- Claim C9: the duplicate test of `generate_mcq` compares the raw,
unstripped oracle answer against the raw stored options, stripping enters
only through the non-emptiness test, and an accepted candidate is stored
verbatim (appended unstripped). In particular a candidate differing from a
stored option only by surrounding whitespace passes the membership test and
is stored with its whitespace. -/
theorem raw_duplicate_check (oracle : Nat → String) (fuel k : Nat)
    (options : List String) (hlen : options.length < 4) :
    genOptionsLoop oracle (fuel + 1) k options =
      if oracle k ∉ options ∧ 0 < (pyStrip (oracle k)).length then
        genOptionsLoop oracle fuel (k + 1) (options ++ [oracle k])
      else genOptionsLoop oracle fuel (k + 1) options :=
  genOptionsLoop_succ oracle fuel k options hlen

/-- Witness for C9: the candidate " Paris" (with a leading space) is accepted
next to the stored option "Paris" and appended verbatim. -/
theorem raw_duplicate_check_witness :
    (["Paris"] : List String).length < 4 ∧
    (" Paris" ∉ (["Paris"] : List String) ∧ 0 < (pyStrip " Paris").length) ∧
    genOptionsLoop exWSOracle 1 0 ["Paris"] =
      (if " Paris" ∉ (["Paris"] : List String) ∧ 0 < (pyStrip " Paris").length then
        genOptionsLoop exWSOracle 0 1 (["Paris"] ++ [" Paris"])
      else genOptionsLoop exWSOracle 0 1 ["Paris"]) := by
  refine ⟨by decide, by decide, ?_⟩
  exact raw_duplicate_check exWSOracle 0 0 ["Paris"] (by decide)

/-! ### Claim C3 -/

/-- Claim C3 (amended): the distractor loop has no attempt bound and raises
no error of its own. When the oracle supplies three answers that are distinct
from each other, non-blank, and different from the correct answer, the loop
finishes after exactly 3 attempts; but with an oracle that keeps returning an
answer already present, no amount of fuel makes the loop finish — it retries
forever instead of failing. -/
theorem distractor_loop_unbounded (correct : String) (oracle : Nat → String)
    (n k : Nat)
    (hne : ∀ i, i < 3 → 0 < (pyStrip (oracle i)).length)
    (hfresh : ∀ i, i < 3 → oracle i ≠ correct)
    (hinj : ∀ i, i < 3 → ∀ j, j < 3 → oracle i = oracle j → i = j) :
    genOptionsLoop oracle 3 0 [correct] =
      some [correct, oracle 0, oracle 1, oracle 2] ∧
    genOptionsLoop (fun _ => correct) n k [correct] = none := by
  constructor
  · have m0 : oracle 0 ∉ [correct] := by simp [hfresh 0 (by omega)]
    have m1 : oracle 1 ∉ [correct, oracle 0] := by
      intro h
      rcases List.mem_cons.mp h with h | h
      · exact hfresh 1 (by omega) h
      · rw [List.mem_singleton] at h
        exact absurd (hinj 1 (by omega) 0 (by omega) h) (by omega)
    have m2 : oracle 2 ∉ [correct, oracle 0, oracle 1] := by
      intro h
      rcases List.mem_cons.mp h with h | h
      · exact hfresh 2 (by omega) h
      rcases List.mem_cons.mp h with h | h
      · exact absurd (hinj 2 (by omega) 0 (by omega) h) (by omega)
      · rw [List.mem_singleton] at h
        exact absurd (hinj 2 (by omega) 1 (by omega) h) (by omega)
    show genOptionsLoop oracle (2 + 1) 0 [correct] = _
    rw [genOptionsLoop_succ oracle 2 0 [correct] (by simp),
      if_pos ⟨m0, hne 0 (by omega)⟩]
    show genOptionsLoop oracle (1 + 1) 1 [correct, oracle 0] = _
    rw [genOptionsLoop_succ oracle 1 1 [correct, oracle 0] (by simp),
      if_pos ⟨m1, hne 1 (by omega)⟩]
    show genOptionsLoop oracle (0 + 1) 2 [correct, oracle 0, oracle 1] = _
    rw [genOptionsLoop_succ oracle 0 2 [correct, oracle 0, oracle 1] (by simp),
      if_pos ⟨m2, hne 2 (by omega)⟩]
    show genOptionsLoop oracle 0 3 [correct, oracle 0, oracle 1, oracle 2] = _
    rw [genOptionsLoop]
    simp
  · exact genOptionsLoop_stuck correct [correct] (List.mem_singleton_self correct)
      (by simp) n k

/-- Witness for C3: a concrete fresh oracle finishes in 3 attempts, and 100
units of fuel do not finish the loop under a constantly duplicating oracle. -/
theorem distractor_loop_unbounded_witness :
    genOptionsLoop (exQa "q") 3 0 ["Paris"] =
      some ["Paris", "London", "Berlin", "Rome"] ∧
    genOptionsLoop (fun _ => "Paris") 100 0 ["Paris"] = none := by
  have h := distractor_loop_unbounded "Paris" (exQa "q") 100 0
    (by decide) (by decide) (by decide)
  exact ⟨h.1, h.2⟩

/-- Counterexample to C3 as stated: there is no bound on oracle attempts and
no generation error — with an oracle that always answers with the correct
answer itself, `generate_mcq` produces no result for any number of attempts,
so no bounded retry policy exists in the code. -/
theorem distractor_loop_no_bound_cex :
    ¬ ∃ fuel : Nat,
      (generate_mcq "q" "Paris" (fun _ _ => "Paris") id fuel).isSome = true := by
  rintro ⟨fuel, hf⟩
  simp only [generate_mcq] at hf
  rw [genOptionsLoop_stuck "Paris" ["Paris"] (List.mem_singleton_self _)
    (by simp) fuel 0] at hf
  simp at hf

/-! ### Claim C2 -/

/-- Claim C2 (amended): scoring is not idempotent. Every Submit click whose
selection equals the current question's correct answer adds exactly 1 to the
score, with no record of earlier submissions, so two matching submissions in
a row before advancing raise the score by 2 (and two non-matching ones by 0);
the per-question cap of the claim does not exist in the code. -/
theorem submit_score_not_idempotent (s : SessionState) (sel : String) :
    (submitStep s sel).score =
      s.score + (match currentQuestion s with
        | some q => if sel = q.correct_answer then 1 else 0
        | none => 0) ∧
    (submitStep (submitStep s sel) sel).score =
      s.score + 2 * (match currentQuestion s with
        | some q => if sel = q.correct_answer then 1 else 0
        | none => 0) := by
  have h1 := submitStep_score s sel
  have h2 := submitStep_score (submitStep s sel) sel
  have hcq : currentQuestion (submitStep s sel) = currentQuestion s := by
    cases hc : currentQuestion s with
    | none => simp only [submitStep, hc]
    | some q =>
      simp only [submitStep, hc]
      by_cases h : sel = q.correct_answer
      · simp only [h, if_true]
        rw [currentQuestion_score_update s (s.score + 1)]
        exact hc
      · simp only [h, if_false]
        exact hc
  rw [hcq] at h2
  refine ⟨h1, ?_⟩
  rw [h2, h1]
  cases hc : currentQuestion s with
  | none => simp
  | some q => by_cases h : sel = q.correct_answer <;> simp [h]

/-- Counterexample to C2 as stated: from the freshly generated example quiz
(in progress, score 0), submitting the correct answer twice in a row before
advancing raises the score to 2, a change of more than 1. -/
theorem submit_double_counts_cex :
    isCompleted (mkInitial exQs) = false ∧
    (mkInitial exQs).score = 0 ∧
    (submitStep (submitStep (mkInitial exQs) "Paris") "Paris").score = 2 ∧
    ¬ ((submitStep (submitStep (mkInitial exQs) "Paris") "Paris").score ≤
        (mkInitial exQs).score + 1) := by decide

/-! ### Claim C5 -/

/-- Claim C5: in every reachable session state the questions list is intact,
`current_question` never exceeds the question count 4, any single interaction
changes it by at most one step upward, a Next click advances it by exactly
one while the quiz is in progress and not at all afterwards, and once it
reaches 4 the session is Completed and stays at 4. -/
theorem current_index_monotone (qs : List Question) (s : SessionState)
    (a : Action) (hlen : qs.length = 4)
    (hreach : Reachable (mkInitial qs) s) :
    s.questions = some qs ∧
    s.current_question ≤ 4 ∧
    s.current_question ≤ (step s a).current_question ∧
    (step s a).current_question ≤ s.current_question + 1 ∧
    ((step s Action.next).current_question =
      if s.current_question < 4 then s.current_question + 1
      else s.current_question) ∧
    (s.current_question = 4 →
      isCompleted s = true ∧ (step s a).current_question = s.current_question) := by
  have hinv := reachable_invariant qs s hreach
  have hn := nextStep_spec s
  rw [hinv.1] at hn
  have hcur : (nextStep s).current_question =
      if s.current_question < qs.length then s.current_question + 1
      else s.current_question := hn.2.2
  have hbounds : ∀ b : Action, (step s b).current_question = s.current_question ∨
      ((step s b).current_question = s.current_question + 1 ∧
        s.current_question < qs.length) := by
    intro b
    cases b with
    | submit sel => exact Or.inl (submitStep_frame s sel).2
    | next =>
      simp only [step]
      by_cases hlt : s.current_question < qs.length
      · right
        refine ⟨?_, hlt⟩
        rw [hcur, if_pos hlt]
      · left
        rw [hcur, if_neg hlt]
    | generate gen =>
      left
      have hg := generateHandler_of_isSome gen s (by rw [hinv.1]; rfl)
      simp only [step, hg]
  refine ⟨hinv.1, by omega, ?_, ?_, ?_, ?_⟩
  · rcases hbounds a with h | h
    · omega
    · omega
  · rcases hbounds a with h | h
    · omega
    · omega
  · show (nextStep s).current_question = _
    rw [hcur, hlen]
  · intro h4
    constructor
    · simp [isCompleted, hinv.1, h4, hlen]
    · rcases hbounds a with h | h
      · exact h
      · omega

/-- Witness for C5: the initial state of the example quiz, under a Next
click. -/
theorem current_index_monotone_witness :
    exQs.length = 4 ∧
    (mkInitial exQs).current_question ≤ 4 ∧
    (step (mkInitial exQs) Action.next).current_question ≤
      (mkInitial exQs).current_question + 1 ∧
    (step (mkInitial exQs) Action.next).current_question =
      (if (mkInitial exQs).current_question < 4 then
        (mkInitial exQs).current_question + 1
      else (mkInitial exQs).current_question) := by
  have h := current_index_monotone exQs (mkInitial exQs) Action.next
    (by decide) Reachable.refl
  exact ⟨by decide, h.2.1, h.2.2.2.1, h.2.2.2.2.1⟩

/-! ### Claim C8 -/

/-- Claim C8: in an in-progress session a Next click advances regardless of
whether any answer was submitted for the current question — it needs no
precondition beyond a question being on display, leaves the score and the
questions list untouched (a skipped question contributes 0), and four Next
clicks from the freshly generated 4-question state complete the quiz with the
score still 0 when no answer was ever submitted. -/
theorem advance_needs_no_submission (qs : List Question) (s : SessionState)
    (hq : s.questions = some qs) (hlt : s.current_question < qs.length)
    (hlen : qs.length = 4) :
    (nextStep s).current_question = s.current_question + 1 ∧
    (nextStep s).score = s.score ∧
    (nextStep s).questions = some qs ∧
    (nextStep (nextStep (nextStep (nextStep (mkInitial qs))))).score = 0 ∧
    isCompleted (nextStep (nextStep (nextStep (nextStep (mkInitial qs))))) = true := by
  have hn := nextStep_spec s
  rw [hq] at hn
  have hcur : (nextStep s).current_question =
      if s.current_question < qs.length then s.current_question + 1
      else s.current_question := hn.2.2
  have h0 : nextStep (mkInitial qs) =
      { questions := some qs, score := 0, current_question := 1 } := by
    rw [nextStep_advances qs (mkInitial qs) rfl (by show 0 < qs.length; omega)]
    rfl
  have h1 : nextStep { questions := some qs, score := 0, current_question := 1 } =
      { questions := some qs, score := 0, current_question := 2 } := by
    rw [nextStep_advances qs _ rfl (by show 1 < qs.length; omega)]
  have h2 : nextStep { questions := some qs, score := 0, current_question := 2 } =
      { questions := some qs, score := 0, current_question := 3 } := by
    rw [nextStep_advances qs _ rfl (by show 2 < qs.length; omega)]
  have h3 : nextStep { questions := some qs, score := 0, current_question := 3 } =
      { questions := some qs, score := 0, current_question := 4 } := by
    rw [nextStep_advances qs _ rfl (by show 3 < qs.length; omega)]
  refine ⟨?_, hn.2.1, hn.1, ?_, ?_⟩
  · rw [hcur, if_pos hlt]
  · rw [h0, h1, h2, h3]
  · rw [h0, h1, h2, h3]
    simp [isCompleted, hlen]

/-- Witness for C8: the example quiz, advanced four times without any
submission. -/
theorem advance_needs_no_submission_witness :
    exQs.length = 4 ∧
    (nextStep (mkInitial exQs)).current_question = 1 ∧
    (nextStep (nextStep (nextStep (nextStep (mkInitial exQs))))).score = 0 ∧
    isCompleted (nextStep (nextStep (nextStep (nextStep (mkInitial exQs))))) = true := by
  have h := advance_needs_no_submission exQs (mkInitial exQs) rfl
    (by decide) (by decide)
  exact ⟨by decide, h.1, h.2.2.2.1, h.2.2.2.2⟩

/-! ### Claim C4 -/

/-- Claim C4 (amended): quiz generation is not atomic. When no quiz exists
yet, the Generate handler commits `questions`, `score = 0` and
`current_question = 0` to session state up front and appends each question as
it is produced, so the post-run state always carries the `questions` key
holding exactly the generated prefix: 4 questions when no oracle call failed,
strictly fewer — residual state included — when one did. -/
theorem generate_commits_incremental_state (gen : Nat → Except Unit Question)
    (s : SessionState) (h : s.questions = none) :
    (generateHandler gen s).1.questions = some (genLoop gen 4 []).1 ∧
    (generateHandler gen s).1.score = 0 ∧
    (generateHandler gen s).1.current_question = 0 ∧
    (generateHandler gen s).2 = (genLoop gen 4 []).2 ∧
    ((genLoop gen 4 []).2 = false → (genLoop gen 4 []).1.length = 4) ∧
    ((genLoop gen 4 []).2 = true → (genLoop gen 4 []).1.length < 4) := by
  have hstep : generateHandler gen s =
      ({ questions := some (genLoop gen 4 []).1, score := 0, current_question := 0 },
        (genLoop gen 4 []).2) := by
    unfold generateHandler
    rw [h]
    rfl
  rw [hstep]
  have hl := genLoop_length gen 4 []
  refine ⟨rfl, rfl, rfl, rfl, ?_, ?_⟩
  · intro hf
    have := hl.1 hf
    simpa using this
  · intro ht
    have := (hl.2 ht).2
    simpa using this

/-- Witness for C4: a generator failing on the third question, run from a
state without a quiz. -/
theorem generate_commits_incremental_state_witness :
    ({ questions := none, score := 0, current_question := 0 } : SessionState).questions
      = none ∧
    (generateHandler exFailGen
      { questions := none, score := 0, current_question := 0 }).1.questions =
      some (genLoop exFailGen 4 []).1 ∧
    ((genLoop exFailGen 4 []).2 = true → (genLoop exFailGen 4 []).1.length < 4) := by
  have h := generate_commits_incremental_state exFailGen
    { questions := none, score := 0, current_question := 0 } rfl
  exact ⟨rfl, h.1, h.2.2.2.2.2⟩

/-- Counterexample to C4 as stated: when the oracle raises while producing
the third question, the session state left behind still holds the questions
key with the 2 questions generated so far — neither all 4 questions nor
nothing. -/
theorem generate_residue_cex :
    generateHandler exFailGen { questions := none, score := 0, current_question := 0 } =
      ({ questions := some [exQ, exQ], score := 0, current_question := 0 }, true) ∧
    ¬ (({ questions := some [exQ, exQ], score := 0,
          current_question := 0 } : SessionState).questions = none) ∧
    [exQ, exQ].length ≠ 4 := by decide

/-! ### Claim C6 -/

/-- Claim C6 (amended): the reported percentage is exactly
100 * score / total with total the length of the questions list; for score 3
out of 4 this is exactly 75. The claim's bound `score ≤ 4` is not an
invariant of the code (see the counterexample): repeated submissions push the
score past the number of questions. -/
theorem summary_percentage_exact (s : SessionState) (qs : List Question)
    (hq : s.questions = some qs) :
    summaryPercentage s = 100 * (s.score : ℚ) / (qs.length : ℚ) ∧
    score_percentage 3 4 = 75 := by
  constructor
  · have : summaryPercentage s = score_percentage s.score qs.length := by
      simp only [summaryPercentage, hq]
    rw [this]
    unfold score_percentage
    ring
  · unfold score_percentage
    norm_num

/-- Witness for C6: the freshly generated example quiz. -/
theorem summary_percentage_exact_witness :
    (mkInitial exQs).questions = some exQs ∧
    summaryPercentage (mkInitial exQs) =
      100 * ((mkInitial exQs).score : ℚ) / ((exQs.length : Nat) : ℚ) ∧
    score_percentage 3 4 = 75 := by
  have h := summary_percentage_exact (mkInitial exQs) exQs rfl
  exact ⟨rfl, h.1, h.2⟩

/-- Counterexample to C6 as stated: a Completed session with score 5 > 4 is
reachable on a 4-question quiz, by submitting the correct answer five times
on the first question and then advancing four times. -/
theorem completed_score_above_total_cex :
    Reachable (mkInitial exQs)
      { questions := some exQs, score := 5, current_question := 4 } ∧
    isCompleted { questions := some exQs, score := 5, current_question := 4 } = true ∧
    exQs.length = 4 ∧ ¬ (5 ≤ exQs.length) := by
  refine ⟨?_, by decide, by decide, by decide⟩
  have r0 : Reachable (mkInitial exQs) (mkInitial exQs) := Reachable.refl
  have r1 := Reachable.tail (Action.submit "Paris") r0
  have r2 := Reachable.tail (Action.submit "Paris") r1
  have r3 := Reachable.tail (Action.submit "Paris") r2
  have r4 := Reachable.tail (Action.submit "Paris") r3
  have r5 := Reachable.tail (Action.submit "Paris") r4
  have r6 := Reachable.tail Action.next r5
  have r7 := Reachable.tail Action.next r6
  have r8 := Reachable.tail Action.next r7
  have r9 := Reachable.tail Action.next r8
  exact r9

/-! ### Claim C7 -/

/-- Claim C7 (amended): the temporary file survives the run exactly on the
two aborted processing paths — a caught save failure after the file was
created (the script stops via st.stop before the cleanup line) and an
uncaught indexing exception — and is removed on every run that reaches the
final cleanup statement, in particular whenever saving and indexing both
succeed. -/
theorem temp_file_cleanup_conditions (uploaded pdf_processed : Bool)
    (save : SaveResult) (idx : IndexResult) :
    ((runUploadScript uploaded pdf_processed save idx).fileExists = true ↔
      (uploaded = true ∧ pdf_processed = false ∧
        (save = SaveResult.writeFail ∨
          (save = SaveResult.saveOk ∧ idx = IndexResult.indexRaise)))) ∧
    ((runUploadScript uploaded pdf_processed save idx).aborted = false →
      (runUploadScript uploaded pdf_processed save idx).fileExists = false) := by
  cases uploaded <;> cases pdf_processed <;> cases save <;> cases idx <;> decide

/-- Counterexample to C7 as stated: on the save-failure path where the file
was created before the write failed, and on the indexing-failure path, the
run ends with the temporary file still present. -/
theorem temp_file_left_cex :
    (runUploadScript true false SaveResult.writeFail IndexResult.indexOk).fileExists
      = true ∧
    (runUploadScript true false SaveResult.saveOk IndexResult.indexRaise).fileExists
      = true := by decide

/-! ### Claim C10 -/

/-- Claim C10: quiz generation happens at most once per session — when the
questions key already exists, triggering the Generate MCQ handler again
leaves the whole session state (questions, score, current position)
unchanged and performs no generation. -/
theorem generate_at_most_once (gen : Nat → Except Unit Question)
    (s : SessionState) (qs : List Question) (h : s.questions = some qs) :
    generateHandler gen s = (s, false) ∧
    (generateHandler gen s).1.questions = some qs ∧
    (generateHandler gen s).1.score = s.score ∧
    (generateHandler gen s).1.current_question = s.current_question := by
  have hg := generateHandler_of_isSome gen s (by rw [h]; rfl)
  exact ⟨hg, by rw [hg]; exact h, by rw [hg], by rw [hg]⟩

/-- Witness for C10: a second Generate click on the example quiz state, with
a generator that would fail if it were consulted. -/
theorem generate_at_most_once_witness :
    (mkInitial exQs).questions = some exQs ∧
    generateHandler exFailGen (mkInitial exQs) = (mkInitial exQs, false) := by
  have h := generate_at_most_once exFailGen (mkInitial exQs) exQs rfl
  exact ⟨rfl, h.1⟩

end MCQGen
